import Mathlib

/-!
Verification of the CryptoStream quote distribution engine.

This file gives a shallow embedding of the core of the repository:

* `TradingViewScraper` (backend/src/services/tradingViewScraper.ts):
  ticker validation and registration (`addTicker`), removal (`removeTicker`),
  the 200ms price-cache gate and price parsing (`getPrice`), batch retrieval
  (`getAllPrices`), and the sorted ticker listing (`getActiveTickers`).
* `PriceStreamer` (backend/src/services/priceStreamer.ts):
  the WebSocket fan-out (`broadcast`) with dead-client eviction, and the
  streaming tick that hands non-empty price batches to `broadcast`.
* The HTTP layer (backend/src/server.ts): the DELETE /api/tickers/:ticker
  handler's not-found check.
* The client hook `useWebSocket` (frontend): the `onclose` reconnect logic
  with exponential backoff and the manual reconnect.

External effects are made explicit: the TradingView page content read by the
scraper is an oracle `String → PageContent`, wall-clock time is a parameter
`now : Int` (JS `Date.now()`), WebSocket send success is a per-client flag,
and JavaScript string builtins (`toUpperCase`, `trim`, `parseFloat`,
`Array.sort`) are implemented below with their JS semantics so that every
definition is executable.
-/

namespace CryptoStream

/-! ### JavaScript string primitives -/

/-- JS `String.prototype.trim` whitespace test, restricted to the whitespace
characters that occur in scraped text. -/
def isJsSpace (c : Char) : Bool := c = ' ' || c = '\t' || c = '\n' || c = '\r'

/-- Drop whitespace from both ends of a character list (JS `trim`). -/
def trimChars (cs : List Char) : List Char :=
  ((cs.dropWhile isJsSpace).reverse.dropWhile isJsSpace).reverse

/-- JS `String.prototype.toUpperCase` on the ASCII tickers this app handles. -/
def toUpperChars (cs : List Char) : List Char := cs.map Char.toUpper

/-- The ticker normalization used throughout the backend:
`ticker.toUpperCase().trim()`. -/
def normalizeTicker (s : String) : String :=
  String.mk (trimChars (toUpperChars s.toList))

/-- Value of a digit string (most significant first). -/
def digitsVal (cs : List Char) : Nat :=
  cs.foldl (fun acc c => 10 * acc + (c.toNat - 48)) 0

/-- The components of a JS `parseFloat` result: sign, integer part, and
fractional part with its digit count. -/
structure FloatParts where
  neg : Bool
  intPart : Nat
  fracPart : Nat
  fracLen : Nat
  deriving DecidableEq

/-- Split an optional leading sign off a character list.  The first component
records whether a sign was present, the second whether it was a minus. -/
def splitSign (cs : List Char) : Bool × Bool × List Char :=
  match cs with
  | c :: r =>
    if c = '-' then (true, true, r)
    else if c = '+' then (true, false, r)
    else (false, false, c :: r)
  | [] => (false, false, [])

/-- JS `parseFloat` on an already-cleaned character list (optional sign,
digits, optional decimal point and more digits; trailing garbage ignored;
`none` models `NaN`). -/
def parsePartsChars (cs : List Char) : Option FloatParts :=
  let sr := splitSign cs
  let rest := sr.2.2
  let intDigits := rest.takeWhile Char.isDigit
  let rest2 := rest.dropWhile Char.isDigit
  match rest2 with
  | c :: r3 =>
    if c = '.' then
      let fracDigits := r3.takeWhile Char.isDigit
      if intDigits.isEmpty && fracDigits.isEmpty then none
      else some ⟨sr.2.1, digitsVal intDigits, digitsVal fracDigits, fracDigits.length⟩
    else if intDigits.isEmpty then none else some ⟨sr.2.1, digitsVal intDigits, 0, 0⟩
  | [] => if intDigits.isEmpty then none else some ⟨sr.2.1, digitsVal intDigits, 0, 0⟩

/-- The rational value of a parsed float. -/
def FloatParts.toRat (p : FloatParts) : ℚ :=
  (if p.neg then -1 else 1) * ((p.intPart : ℚ) + (p.fracPart : ℚ) / (10 : ℚ) ^ p.fracLen)

/-- JS `parseFloat` as used on cleaned price and change strings
(`none` models `NaN`). -/
def jsParseFloat (s : String) : Option ℚ :=
  (parsePartsChars s.toList).map FloatParts.toRat

/-- Character class kept by the price cleaner `replace(/[^\d.,-]/g, '')`. -/
def priceKeepChar (c : Char) : Bool := c.isDigit || c = '.' || c = ',' || c = '-'

/-- `priceText.replace(/[^\d.,-]/g, '').replace(/,/g, '').trim()` from
`getPrice`. -/
def cleanPriceText (s : String) : String :=
  String.mk (trimChars ((s.toList.filter priceKeepChar).filter (fun c => ¬ c = ',')))

/-- Character class kept by the change cleaner `replace(/[^\d.,+-]/g, '')`. -/
def changeKeepChar (c : Char) : Bool :=
  c.isDigit || c = '.' || c = ',' || c = '+' || c = '-'

/-- Head test on a character list (JS `startsWith` with a single char). -/
def headIs (cs : List Char) (c : Char) : Bool :=
  match cs with
  | x :: _ => x = c
  | [] => false

/-- The daily-change parsing in `getPrice`: trim, remember a leading `+`, `−`
(U+2212) or `-` sign, strip everything outside `[0-9.,+-]`, drop commas,
re-apply the remembered sign if stripping lost it, then `parseFloat`;
`none` when the text is blank or parses to `NaN`. -/
def parseChangeText (s : String) : Option ℚ :=
  let t := trimChars s.toList
  if t.isEmpty then none
  else
    let hasSign := headIs t '+' || headIs t '−' || headIs t '-'
    let sign : List Char := if headIs t '+' then ['+']
      else if headIs t '−' || headIs t '-' then ['-'] else []
    let cleaned := (t.filter changeKeepChar).filter (fun c => ¬ c = ',')
    let cleaned2 := if hasSign && !(headIs cleaned '+') && !(headIs cleaned '-')
      then sign ++ cleaned else cleaned
    (parsePartsChars cleaned2).map FloatParts.toRat

/-- Code-unit comparison of strings, the default JS `Array.prototype.sort`
order used by `getActiveTickers`. -/
def charCodesLe : List Char → List Char → Bool
  | [], _ => true
  | _ :: _, [] => false
  | a :: as, b :: bs =>
    if a.toNat < b.toNat then true
    else if b.toNat < a.toNat then false
    else charCodesLe as bs

/-- JS string `≤` by code units. -/
def jsStrLe (a b : String) : Bool := charCodesLe a.toList b.toList

/-- Insertion into a sorted list, the building block of the sort model. -/
def sortedInsert (x : String) : List String → List String
  | [] => [x]
  | y :: ys => if jsStrLe x y then x :: y :: ys else y :: sortedInsert x ys

/-- JS `Array.from(set).sort()`: sort a list of strings by code units. -/
def sortStrings (l : List String) : List String := l.foldr sortedInsert []

theorem mem_sortedInsert (a x : String) (l : List String) :
    a ∈ sortedInsert x l ↔ a = x ∨ a ∈ l := by
  induction l with
  | nil => simp [sortedInsert]
  | cons y ys ih =>
    by_cases h : jsStrLe x y
    · simp [sortedInsert, h]
    · simp [sortedInsert, h, ih]
      tauto

theorem mem_sortStrings (a : String) (l : List String) : a ∈ sortStrings l ↔ a ∈ l := by
  induction l with
  | nil => simp [sortStrings]
  | cons y ys ih =>
    simp only [sortStrings, List.foldr] at *
    rw [mem_sortedInsert]
    simp [ih]

/-! ### Normalization is idempotent

The backend normalizes ticker strings more than once along the removal path
(the HTTP handler normalizes, then `removeTicker` normalizes again); the
following lemmas show the second pass is the identity. -/

theorem dropWhile_head_not (p : α → Bool) :
    ∀ (l : List α) x m, l.dropWhile p = x :: m → ¬ p x
  | [], x, m, h => by simp at h
  | a :: as, x, m, h => by
    by_cases hpa : p a
    · rw [List.dropWhile_cons, if_pos hpa] at h
      exact dropWhile_head_not p as x m h
    · rw [List.dropWhile_cons, if_neg hpa] at h
      obtain ⟨rfl, -⟩ := List.cons.inj h
      exact hpa

theorem dropWhile_dropWhile (p : α → Bool) (l : List α) :
    (l.dropWhile p).dropWhile p = l.dropWhile p := by
  cases h : l.dropWhile p with
  | nil => simp
  | cons x xs =>
    have hx : ¬ p x := dropWhile_head_not p l x xs h
    simp [List.dropWhile_cons, hx]

theorem dropWhile_trimChars (l : List Char) :
    (trimChars l).dropWhile isJsSpace = trimChars l := by
  unfold trimChars
  cases h : ((l.dropWhile isJsSpace).reverse.dropWhile isJsSpace).reverse with
  | nil => simp
  | cons x xs =>
    have hpre : ((l.dropWhile isJsSpace).reverse.dropWhile isJsSpace).reverse <+:
        ((l.dropWhile isJsSpace).reverse).reverse :=
      List.reverse_prefix.2 (List.dropWhile_suffix isJsSpace)
    rw [List.reverse_reverse, h] at hpre
    obtain ⟨t, ht⟩ := hpre
    have hcons : l.dropWhile isJsSpace = x :: (xs ++ t) := by rw [← ht]; simp
    have hx : ¬ isJsSpace x := dropWhile_head_not isJsSpace l x (xs ++ t) hcons
    simp [List.dropWhile_cons, hx]

theorem trimChars_idem (l : List Char) : trimChars (trimChars l) = trimChars l := by
  conv_lhs => rw [trimChars, dropWhile_trimChars]
  rw [trimChars, List.reverse_reverse, dropWhile_dropWhile]

theorem mem_trimChars {c : Char} {l : List Char} (h : c ∈ trimChars l) : c ∈ l := by
  unfold trimChars at h
  rw [List.mem_reverse] at h
  have h1 := (List.dropWhile_sublist (l := (l.dropWhile isJsSpace).reverse) isJsSpace).mem h
  rw [List.mem_reverse] at h1
  exact (List.dropWhile_sublist isJsSpace).mem h1

theorem char_toNat_ofNat_valid (n : Nat) (h : n < 55296) : (Char.ofNat n).toNat = n := by
  have hv : n.isValidChar := Or.inl h
  simp [Char.ofNat, hv, Char.toNat, Char.ofNatAux, UInt32.toNat, BitVec.toNat_ofNatLt]

theorem char_toUpper_idem (c : Char) : c.toUpper.toUpper = c.toUpper := by
  unfold Char.toUpper
  by_cases h : c.toNat ≥ 97 ∧ c.toNat ≤ 122
  · rw [if_pos h]
    have h32 : (Char.ofNat (c.toNat - 32)).toNat = c.toNat - 32 :=
      char_toNat_ofNat_valid _ (by omega)
    rw [if_neg]
    rw [h32]
    omega
  · rw [if_neg h, if_neg h]

theorem toUpperChars_trimChars_toUpperChars (l : List Char) :
    toUpperChars (trimChars (toUpperChars l)) = trimChars (toUpperChars l) := by
  have h : ∀ c ∈ trimChars (toUpperChars l), c.toUpper = c := by
    intro c hc
    have hmem : c ∈ toUpperChars l := mem_trimChars hc
    obtain ⟨y, -, rfl⟩ := List.mem_map.1 hmem
    exact char_toUpper_idem y
  calc toUpperChars (trimChars (toUpperChars l))
      = (trimChars (toUpperChars l)).map id := List.map_congr_left h
    _ = trimChars (toUpperChars l) := List.map_id _

theorem normalizeTicker_idem (s : String) :
    normalizeTicker (normalizeTicker s) = normalizeTicker s := by
  unfold normalizeTicker
  show String.mk (trimChars (toUpperChars (trimChars (toUpperChars s.toList)))) =
    String.mk (trimChars (toUpperChars s.toList))
  rw [toUpperChars_trimChars_toUpperChars, trimChars_idem]

/-! ### Data model of `TradingViewScraper` -/

/-- `PriceData` from backend/src/types/index.ts, with `price` as an exact
rational (the positivity claims are about its sign, not float rounding). -/
structure PriceData where
  ticker : String
  price : ℚ
  timestamp : Int
  change : Option ℚ
  changePercent : Option ℚ
  tradingViewTimestamp : Option String

/-- What the scraper can observe on a ticker's TradingView page during one
`getPrice` call: the four `page.textContent` reads.  `none` models a selector
that matched nothing, timed out, or threw. -/
structure PageContent where
  priceText : Option String
  changeText : Option String
  changePercentText : Option String
  timestampText : Option String

/-- The mutable state of a `TradingViewScraper` instance: the set of tickers
with an open Playwright page (the keys of `pages`), the `activeTickers` set,
and the `lastPriceUpdate` timestamp map (milliseconds). -/
structure ScraperState where
  pages : List String
  activeTickers : List String
  lastPriceUpdate : List (String × Int)
  deriving DecidableEq

/-- `PRICE_CACHE_DURATION = 200` — cache prices for 200ms. -/
def PRICE_CACHE_DURATION : Int := 200

/-- Association-list update, modelling `Map.prototype.set`. -/
def mapSet (m : List (String × Int)) (k : String) (v : Int) : List (String × Int) :=
  match m with
  | [] => [(k, v)]
  | (k0, v0) :: rest => if k0 = k then (k, v) :: rest else (k0, v0) :: mapSet rest k v

/-! ### `TradingViewScraper` operations -/

/-- The errors `addTicker` (and its caller) can raise. -/
inductive AddError where
  /-- "Invalid ticker: must be a non-empty string" -/
  | emptyTicker
  /-- "Invalid ticker format: only alphanumeric characters allowed" -/
  | invalidFormat
  /-- "Invalid ticker length: must be 3-10 characters" -/
  | invalidLength
  /-- "Browser not initialized" -/
  | browserNotInitialized
  /-- the TradingView error page was detected: ticker not found at the source -/
  | notFoundOnSource
  deriving DecidableEq

/-- The regex `^[A-Z0-9]+$` of `addTicker`. -/
def matchesTickerCharset (s : String) : Bool :=
  !s.isEmpty && s.toList.all (fun c => ('A' ≤ c && c ≤ 'Z') || ('0' ≤ c && c ≤ '9'))

/-- `TradingViewScraper.addTicker`.  `browserUp` models `this.browser !== null`
and `foundOnSource t` models the navigation to the TradingView page succeeding
without the "This isn't the page you're looking for" error page. -/
def addTicker (browserUp : Bool) (foundOnSource : String → Bool)
    (st : ScraperState) (ticker : String) : Except AddError ScraperState :=
  if ticker = "" then .error .emptyTicker
  else
    let t := normalizeTicker ticker
    if ¬ matchesTickerCharset t then .error .invalidFormat
    else if t.length < 3 || 10 < t.length then .error .invalidLength
    else if st.activeTickers.contains t then .ok st
    else if ¬ browserUp then .error .browserNotInitialized
    else if ¬ foundOnSource t then .error .notFoundOnSource
    else .ok { st with pages := st.pages ++ [t], activeTickers := st.activeTickers ++ [t] }

/-- `TradingViewScraper.removeTicker`: closes and drops the page entry and
removes the ticker from `activeTickers`.  The `lastPriceUpdate` map is left
untouched — the source never deletes from it. -/
def removeTicker (st : ScraperState) (ticker : String) : ScraperState :=
  let t := normalizeTicker ticker
  { pages := st.pages.erase t
    activeTickers := st.activeTickers.erase t
    lastPriceUpdate := st.lastPriceUpdate }

/-- `TradingViewScraper.getActiveTickers`: the tracked set, sorted. -/
def getActiveTickers (st : ScraperState) : List String :=
  sortStrings st.activeTickers

/-- `TradingViewScraper.getTickerCount`. -/
def getTickerCount (st : ScraperState) : Nat := st.activeTickers.length

/-- `TradingViewScraper.getPrice`.  Returns the `PriceData` (or `null`) and
the updated scraper state.  `content` is the page-read oracle and `now` is
`Date.now()` at the start of the call. -/
def getPrice (content : String → PageContent) (now : Int)
    (st : ScraperState) (ticker : String) : Option PriceData × ScraperState :=
  let t := normalizeTicker ticker
  if ¬ st.pages.contains t then (none, st)
  else
    let lastUpdate := (st.lastPriceUpdate.lookup t).getD 0
    if now - lastUpdate < PRICE_CACHE_DURATION then (none, st)
    else
      match (content t).priceText with
      | none => (none, st)
      | some priceText =>
        if (trimChars priceText.toList).isEmpty then (none, st)
        else
          match jsParseFloat (cleanPriceText priceText) with
          | none => (none, st)
          | some price =>
            if price ≤ 0 then (none, st)
            else
              let dailyChange := (content t).changeText.bind parseChangeText
              let dailyChangePercent := (content t).changePercentText.bind parseChangeText
              let tvTimestamp := (content t).timestampText.bind (fun s =>
                if (trimChars s.toList).isEmpty then none
                else some (String.mk (trimChars s.toList)))
              (some { ticker := t, price := price, timestamp := now,
                      change := dailyChange, changePercent := dailyChangePercent,
                      tradingViewTimestamp := tvTimestamp },
               { st with lastPriceUpdate := mapSet st.lastPriceUpdate t now })

/-- The per-ticker loop of `getAllPrices` (the `Promise.all` over
`Array.from(this.activeTickers)`; a rejection is caught and becomes `null`,
which the page-read oracle already models). -/
def getPriceList (content : String → PageContent) (now : Int) :
    ScraperState → List String → List (Option PriceData) × ScraperState
  | st, [] => ([], st)
  | st, t :: ts =>
    let r := getPrice content now st t
    let rest := getPriceList content now r.2 ts
    (r.1 :: rest.1, rest.2)

/-- `TradingViewScraper.getAllPrices`: every ticker's `getPrice` result with
the `null`s filtered out. -/
def getAllPrices (content : String → PageContent) (now : Int)
    (st : ScraperState) : List PriceData × ScraperState :=
  let r := getPriceList content now st st.activeTickers
  (r.1.filterMap id, r.2)

/-! ### `PriceStreamer` broadcast -/

/-- One entry of the `clients` map of `PriceStreamer`: the WebSocket handle is
reduced to what `broadcast` observes of it — its `readyState` at iteration
time and whether `ws.send` returns without throwing. -/
structure Client where
  id : String
  readyState : Nat
  sendOk : Bool
  deriving DecidableEq

/-- In `broadcast`, a client receives the message exactly when its socket is
`WebSocket.OPEN` (`readyState === 1`) and `ws.send` does not throw. -/
def clientSendSucceeds (c : Client) : Bool := c.readyState = 1 && c.sendOk

/-- The `deadClients` list `broadcast` accumulates: a client is marked dead
when its socket is not open, or when `ws.send` threw (the `catch` branch). -/
def broadcastDeadIds (clients : List Client) : List String :=
  (clients.filter (fun c => ! clientSendSucceeds c)).map Client.id

/-- The ids `broadcast` actually delivers the message to. -/
def broadcastDelivered (clients : List Client) : List String :=
  (clients.filter clientSendSucceeds).map Client.id

/-- The client registry after `broadcast`: every id in `deadClients` has been
deleted from the map. -/
def broadcastSurvivors (clients : List Client) : List Client :=
  clients.filter (fun c => ! (broadcastDeadIds clients).contains c.id)

/-- The streaming tick body in `startStreaming`: fetch all prices and, only if
the batch is non-empty, hand it to `broadcast` as a `prices` message.  The
first component is the broadcast payload (`none` = no broadcast this tick). -/
def streamTick (content : String → PageContent) (now : Int)
    (st : ScraperState) : Option (List PriceData) × ScraperState :=
  let r := getAllPrices content now st
  (if 0 < r.1.length then some r.1 else none, r.2)

/-! ### The DELETE /api/tickers/:ticker handler -/

/-- Errors of the DELETE handler in server.ts. -/
inductive RemoveError where
  /-- 400 MISSING_TICKER_PARAM -/
  | missingParam
  /-- 404 TICKER_NOT_FOUND -/
  | tickerNotFound
  deriving DecidableEq

/-- `DELETE /api/tickers/:ticker`: 404 when the normalized ticker is not in
`getActiveTickers()`, otherwise `removeTicker`. -/
def deleteTickerEndpoint (st : ScraperState) (ticker : String) :
    Except RemoveError ScraperState :=
  if ticker = "" then .error .missingParam
  else
    let t := normalizeTicker ticker
    if ¬ (getActiveTickers st).contains t then .error .tickerNotFound
    else .ok (removeTicker st t)

/-! ### The client-side `useWebSocket` reconnect state machine -/

/-- The connection state the hook tracks (`reconnectAttempts` mirrors
`reconnectAttemptsRef.current`, which drives the logic). -/
structure ConnState where
  isConnected : Bool
  isConnecting : Bool
  reconnectAttempts : Nat
  lastError : Option String
  deriving DecidableEq

/-- `maxReconnectAttempts = 3`. -/
def maxReconnectAttempts : Nat := 3

/-- `reconnectDelay = 3000` (milliseconds). -/
def reconnectDelay : ℚ := 3000

/-- The delay scheduled for reconnect attempt number `attempt`:
`Math.min(reconnectDelay * Math.pow(1.5, attempt - 1), 10000)`. -/
def backoffDelay (attempt : Nat) : ℚ :=
  min (reconnectDelay * (3 / 2 : ℚ) ^ (attempt - 1)) 10000

/-- The hook's state before any connection event. -/
def initialConnState : ConnState :=
  { isConnected := false, isConnecting := false,
    reconnectAttempts := 0, lastError := none }

/-- The `ws.onopen` handler: connected, attempt counter reset to 0. -/
def onOpen (_s : ConnState) : ConnState :=
  { isConnected := true, isConnecting := false,
    reconnectAttempts := 0, lastError := none }

/-- The `ws.onclose` handler.  `code` is the close code; codes 1000 and 1001
are voluntary.  Returns the new state and the reconnect delay scheduled by
`setTimeout`, if any. -/
def onClose (code : Nat) (s : ConnState) : ConnState × Option ℚ :=
  let s1 := { s with isConnected := false, isConnecting := false }
  if (¬ code = 1000 ∧ ¬ code = 1001) ∧ s1.reconnectAttempts < maxReconnectAttempts then
    let attempts := s1.reconnectAttempts + 1
    ({ s1 with reconnectAttempts := attempts }, some (backoffDelay attempts))
  else if maxReconnectAttempts ≤ s1.reconnectAttempts then
    ({ s1 with lastError := some "Max reconnection attempts reached" }, none)
  else
    (s1, none)

/-- `disconnect()`: cancels any pending retry, closes the socket, and clears
the connected/connecting flags. -/
def disconnectUpdate (s : ConnState) : ConnState :=
  { s with isConnected := false, isConnecting := false }

/-- `manualReconnect()`: reset the attempt counter and error, force a
disconnect, and schedule `connect()` after the fixed 1000ms grace delay. -/
def manualReconnect (s : ConnState) : ConnState × Option ℚ :=
  let s1 := { s with reconnectAttempts := 0, lastError := none }
  (disconnectUpdate s1, some 1000)

/-- The state after `k` involuntary connection losses (close code `code`)
with no successful open in between. -/
def afterLosses (code : Nat) : Nat → ConnState
  | 0 => initialConnState
  | k + 1 => (onClose code (afterLosses code k)).1

/-- The retry delay scheduled by the `k`-th involuntary loss (`k ≥ 1`). -/
def scheduledDelayAtLoss (code : Nat) (k : Nat) : Option ℚ :=
  (onClose code (afterLosses code (k - 1))).2

/-! ### Client reconnect backoff (claims C6, C7) -/

theorem afterLosses_attempts (code : Nat) (hc1 : ¬ code = 1000) (hc2 : ¬ code = 1001) :
    ∀ k, k ≤ 3 → (afterLosses code k).reconnectAttempts = k := by
  intro k
  induction k with
  | zero => intro _; rfl
  | succ n ih =>
    intro hle
    have hn := ih (by omega)
    have hlt : n < maxReconnectAttempts := by
      unfold maxReconnectAttempts; omega
    show (onClose code (afterLosses code n)).1.reconnectAttempts = n + 1
    simp [onClose, hc1, hc2, hn, hlt]

theorem scheduledDelayAtLoss_eq_backoff (code k : Nat)
    (hc1 : ¬ code = 1000) (hc2 : ¬ code = 1001) (hk1 : 1 ≤ k) (hk3 : k ≤ 3) :
    scheduledDelayAtLoss code k = some (backoffDelay k) := by
  have ha := afterLosses_attempts code hc1 hc2 (k - 1) (by omega)
  have hlt : k - 1 < maxReconnectAttempts := by
    unfold maxReconnectAttempts; omega
  rw [scheduledDelayAtLoss]
  simp [onClose, hc1, hc2, ha, hlt]
  congr 1
  omega

/-- C6: with `baseDelay = 3000` and cap `10000`, the delay the client schedules
after the `k`-th involuntary connection loss is
`min(3000 * 1.5^(k-1), 10000)`, which is 3000, 4500, 6750 for `k = 1, 2, 3`. -/
theorem reconnect_backoff_sequence (code k : Nat)
    (hc1 : ¬ code = 1000) (hc2 : ¬ code = 1001) (hk1 : 1 ≤ k) (hk3 : k ≤ 3) :
    scheduledDelayAtLoss code k = some (min (3000 * (3 / 2 : ℚ) ^ (k - 1)) 10000) ∧
    scheduledDelayAtLoss code 1 = some 3000 ∧
    scheduledDelayAtLoss code 2 = some 4500 ∧
    scheduledDelayAtLoss code 3 = some 6750 := by
  have h1 := scheduledDelayAtLoss_eq_backoff code 1 hc1 hc2 (by omega) (by omega)
  have h2 := scheduledDelayAtLoss_eq_backoff code 2 hc1 hc2 (by omega) (by omega)
  have h3 := scheduledDelayAtLoss_eq_backoff code 3 hc1 hc2 (by omega) (by omega)
  refine ⟨?_, ?_, ?_, ?_⟩
  · rw [scheduledDelayAtLoss_eq_backoff code k hc1 hc2 hk1 hk3]
    unfold backoffDelay reconnectDelay
    rfl
  · rw [h1]; unfold backoffDelay reconnectDelay; norm_num
  · rw [h2]; unfold backoffDelay reconnectDelay; norm_num
  · rw [h3]
    unfold backoffDelay reconnectDelay
    norm_num

/-- C6 witness: the loss sequence with close code 1006 at attempt 3. -/
theorem reconnect_backoff_sequence_witness :
    scheduledDelayAtLoss 1006 3 = some (min (3000 * (3 / 2 : ℚ) ^ (3 - 1)) 10000) ∧
    scheduledDelayAtLoss 1006 1 = some 3000 ∧
    scheduledDelayAtLoss 1006 2 = some 4500 ∧
    scheduledDelayAtLoss 1006 3 = some 6750 :=
  reconnect_backoff_sequence 1006 3 (by decide) (by decide) (by decide) (by decide)

/-- C7: once the attempt counter has reached the maximum (3), `onclose`
schedules no retry for any close code; an involuntary loss surfaces the
terminal "Max reconnection attempts reached" error; and `manualReconnect`
resets the counter to 0, clears the error, and schedules `connect()` after
the fixed 1000ms grace delay. -/
theorem max_attempts_terminal (s : ConnState) (code : Nat)
    (hmax : maxReconnectAttempts ≤ s.reconnectAttempts) :
    (∀ c : Nat, (onClose c s).2 = none) ∧
    (¬ code = 1000 → ¬ code = 1001 →
      (onClose code s).1.lastError = some "Max reconnection attempts reached") ∧
    (manualReconnect s).1.reconnectAttempts = 0 ∧
    (manualReconnect s).1.lastError = none ∧
    (manualReconnect s).2 = some 1000 := by
  have hnlt : ¬ s.reconnectAttempts < maxReconnectAttempts := by omega
  refine ⟨?_, ?_, rfl, rfl, rfl⟩
  · intro c
    simp [onClose, hnlt, hmax]
  · intro _ _
    simp [onClose, hnlt, hmax]

/-- C7 witness: a state with 3 recorded attempts and close code 1006. -/
theorem max_attempts_terminal_witness :
    (∀ c : Nat, (onClose c ⟨false, false, 3, none⟩).2 = none) ∧
    (¬ (1006 : Nat) = 1000 → ¬ (1006 : Nat) = 1001 →
      (onClose 1006 ⟨false, false, 3, none⟩).1.lastError =
        some "Max reconnection attempts reached") ∧
    (manualReconnect ⟨false, false, 3, none⟩).1.reconnectAttempts = 0 ∧
    (manualReconnect ⟨false, false, 3, none⟩).1.lastError = none ∧
    (manualReconnect ⟨false, false, 3, none⟩).2 = some 1000 :=
  max_attempts_terminal ⟨false, false, 3, none⟩ 1006 (by decide)

/-! ### Broadcast fan-out (claims C5, C10) -/

theorem mem_broadcastDeadIds_of_not_succeeds {c : Client} {clients : List Client}
    (hc : c ∈ clients) (hfail : clientSendSucceeds c = false) :
    c.id ∈ broadcastDeadIds clients := by
  unfold broadcastDeadIds
  exact List.mem_map_of_mem Client.id (List.mem_filter.2 ⟨hc, by simp [hfail]⟩)

/-- C5: `broadcast` delivers the message to every registered client whose
socket is open and whose send succeeds, and such a client stays registered;
a client whose send fails is put on the dead list; and removing a failing
client is the only effect a failure has on delivery — the delivered set with
the failing client present is the delivered set without it. -/
theorem broadcast_isolates_failures (clients : List Client)
    (hnodup : (clients.map Client.id).Nodup) :
    (∀ c ∈ clients, clientSendSucceeds c = true →
      c.id ∈ broadcastDelivered clients ∧ c ∈ broadcastSurvivors clients) ∧
    (∀ f ∈ clients, clientSendSucceeds f = false →
      f.id ∈ broadcastDeadIds clients) ∧
    (∀ (l₁ l₂ : List Client) (f : Client), clientSendSucceeds f = false →
      broadcastDelivered (l₁ ++ f :: l₂) = broadcastDelivered (l₁ ++ l₂)) := by
  refine ⟨?_, ?_, ?_⟩
  · intro c hc hok
    constructor
    · exact List.mem_map_of_mem Client.id (List.mem_filter.2 ⟨hc, hok⟩)
    · unfold broadcastSurvivors
      refine List.mem_filter.2 ⟨hc, ?_⟩
      have hnotdead : c.id ∉ broadcastDeadIds clients := by
        intro hmem'
        unfold broadcastDeadIds at hmem'
        obtain ⟨d, hd, hid⟩ := List.mem_map.1 hmem'
        have hdmem := (List.mem_filter.1 hd).1
        have hdfail := (List.mem_filter.1 hd).2
        have hdc : d = c := List.inj_on_of_nodup_map hnodup hdmem hc hid
        subst hdc
        simp [hok] at hdfail
      simp [hnotdead]
  · intro f hf hfail
    exact mem_broadcastDeadIds_of_not_succeeds hf hfail
  · intro l₁ l₂ f hfail
    unfold broadcastDelivered
    rw [List.filter_append, List.filter_append, List.filter_cons_of_neg]
    simp [hfail]

/-- The clients used in the C5 witness: one healthy, one whose send throws,
one whose socket is closed. -/
def c5Clients : List Client := [⟨"a", 1, true⟩, ⟨"b", 1, false⟩, ⟨"c", 0, true⟩]

/-- C5 witness: on `c5Clients`, the healthy client "a" is delivered to and
survives, the throwing client "b" is marked dead, and removing "b" leaves
delivery unchanged. -/
theorem broadcast_isolates_failures_witness :
    (⟨"a", 1, true⟩ : Client).id ∈ broadcastDelivered c5Clients ∧
    (⟨"a", 1, true⟩ : Client) ∈ broadcastSurvivors c5Clients ∧
    (⟨"b", 1, false⟩ : Client).id ∈ broadcastDeadIds c5Clients ∧
    broadcastDelivered ([⟨"a", 1, true⟩] ++ ⟨"b", 1, false⟩ :: [⟨"c", 0, true⟩]) =
      broadcastDelivered ([⟨"a", 1, true⟩] ++ [⟨"c", 0, true⟩]) := by
  have h := broadcast_isolates_failures c5Clients (by decide)
  have h1 := h.1 ⟨"a", 1, true⟩ (by decide) (by decide)
  have h2 := h.2.1 ⟨"b", 1, false⟩ (by decide) (by decide)
  have h3 := h.2.2 [⟨"a", 1, true⟩] [⟨"c", 0, true⟩] ⟨"b", 1, false⟩ (by decide)
  exact ⟨h1.1, h1.2, h2, h3⟩

/-- C10: `broadcast` also evicts clients whose socket is not open even when no
send throws: every client left in the registry after a broadcast had
`readyState === 1` (and a successful send) when the broadcast visited it, and
every registered client whose socket was not open is on the dead list. -/
theorem broadcast_survivors_were_open (clients : List Client) :
    (∀ c ∈ broadcastSurvivors clients, c.readyState = 1 ∧ c.sendOk = true) ∧
    (∀ c ∈ clients, ¬ c.readyState = 1 → c.id ∈ broadcastDeadIds clients) := by
  constructor
  · intro c hc
    have hmem := (List.mem_filter.1 hc).1
    have hnot := (List.mem_filter.1 hc).2
    by_cases hok : clientSendSucceeds c = true
    · simpa [clientSendSucceeds] using hok
    · exfalso
      have hfail : clientSendSucceeds c = false := by
        cases hcs : clientSendSucceeds c
        · rfl
        · exact absurd hcs hok
      have hdead := mem_broadcastDeadIds_of_not_succeeds hmem hfail
      simp [hdead] at hnot
  · intro c hc hclosed
    apply mem_broadcastDeadIds_of_not_succeeds hc
    unfold clientSendSucceeds
    simp [hclosed]

/-- C10 witness: on `c5Clients`, the closed-socket client "c" lands on the
dead list, and the surviving clients were open. -/
theorem broadcast_survivors_were_open_witness :
    ((⟨"c", 0, true⟩ : Client).id ∈ broadcastDeadIds c5Clients) ∧
    (∀ c ∈ broadcastSurvivors c5Clients, c.readyState = 1 ∧ c.sendOk = true) := by
  have h := broadcast_survivors_were_open c5Clients
  exact ⟨h.2 ⟨"c", 0, true⟩ (by decide) (by decide), h.1⟩

/-! ### Ticker registration and removal (claims C2, C3, C4) -/

/-- The validation errors of `addTicker` (raised before any resource is
touched), as opposed to its browser/source errors. -/
def isValidationError : AddError → Bool
  | .emptyTicker => true
  | .invalidFormat => true
  | .invalidLength => true
  | .browserNotInitialized => false
  | .notFoundOnSource => false

/-- C3 counterexample: `"ABCDEFGHIJKL"` is uppercase alphanumeric and 12
characters long — inside the claimed 3–15 character rule — yet `addTicker`
rejects it with a length error, because the code enforces 3–10. -/
theorem addTicker_length_counterexample :
    matchesTickerCharset (normalizeTicker "ABCDEFGHIJKL") = true ∧
    (normalizeTicker "ABCDEFGHIJKL").length = 12 ∧
    addTicker true (fun _ => true) ⟨[], [], []⟩ "ABCDEFGHIJKL" =
      .error .invalidLength :=
  ⟨rfl, rfl, rfl⟩

/-- C3 amended: `addTicker` fails with a validation error exactly when the
normalized input is not an uppercase alphanumeric string of 3 to 10
characters; every input satisfying that rule passes validation. -/
theorem addTicker_validation_iff (browserUp : Bool) (src : String → Bool)
    (st : ScraperState) (ticker : String) :
    (∃ e, addTicker browserUp src st ticker = .error e ∧ isValidationError e = true) ↔
    ¬ (matchesTickerCharset (normalizeTicker ticker) = true ∧
       3 ≤ (normalizeTicker ticker).length ∧ (normalizeTicker ticker).length ≤ 10) := by
  by_cases h0 : ticker = ""
  · subst h0
    constructor
    · intro _
      intro hcl
      have : matchesTickerCharset (normalizeTicker "") = false := rfl
      rw [this] at hcl
      exact absurd hcl.1 (by simp)
    · intro _
      exact ⟨.emptyTicker, by simp [addTicker], rfl⟩
  · by_cases hcs : matchesTickerCharset (normalizeTicker ticker) = true
    · by_cases hlen : (normalizeTicker ticker).length < 3 ∨ 10 < (normalizeTicker ticker).length
      · constructor
        · intro _
          intro hcl
          omega
        · intro _
          refine ⟨.invalidLength, ?_, rfl⟩
          have hlen' : ((normalizeTicker ticker).length < 3 ||
              10 < (normalizeTicker ticker).length) = true := by
            simpa using hlen
          simp [addTicker, h0, hcs, hlen']
      · constructor
        · rintro ⟨e, he, hv⟩
          have hlen' : ((normalizeTicker ticker).length < 3 ||
              10 < (normalizeTicker ticker).length) = false := by
            simpa using hlen
          by_cases htr : normalizeTicker ticker ∈ st.activeTickers
          · simp [addTicker, h0, hcs, hlen', htr] at he
          · by_cases hb : browserUp = true
            · by_cases hsrc : src (normalizeTicker ticker) = true
              · simp [addTicker, h0, hcs, hlen', htr, hb, hsrc] at he
              · have hsrc' : src (normalizeTicker ticker) = false := by
                  simpa using hsrc
                simp [addTicker, h0, hcs, hlen', htr, hb, hsrc'] at he
                subst he
                simp [isValidationError] at hv
            · have hb' : browserUp = false := by simpa using hb
              simp [addTicker, h0, hcs, hlen', htr, hb'] at he
              subst he
              simp [isValidationError] at hv
        · intro hcl
          exfalso
          apply hcl
          refine ⟨hcs, ?_, ?_⟩ <;> omega
    · constructor
      · intro _
        intro hcl
        exact hcs hcl.1
      · intro _
        have hcs' : matchesTickerCharset (normalizeTicker ticker) = false := by
          simpa using hcs
        exact ⟨.invalidFormat, by simp [addTicker, h0, hcs'], rfl⟩

/-- C3 witness: `"BTCUSD"` satisfies the 3–10 rule and indeed produces no
validation error. -/
theorem addTicker_validation_iff_witness :
    ¬ (∃ e, addTicker true (fun _ => true) ⟨[], [], []⟩ "BTCUSD" = .error e ∧
        isValidationError e = true) := by
  rw [addTicker_validation_iff true (fun _ => true) ⟨[], [], []⟩ "BTCUSD"]
  intro hcl
  exact hcl ⟨by decide, by decide, by decide⟩

/-- C4: `addTicker` is idempotent — when a call succeeds, calling it again
with the same input returns success and leaves the state unchanged, and the
(normalized) ticker is tracked exactly once. -/
theorem addTicker_idempotent (browserUp : Bool) (src : String → Bool)
    (st st₁ : ScraperState) (ticker : String)
    (h1 : addTicker browserUp src st ticker = .ok st₁)
    (hnd : st.activeTickers.Nodup) :
    addTicker browserUp src st₁ ticker = .ok st₁ ∧
    st₁.activeTickers.count (normalizeTicker ticker) = 1 ∧
    st₁.activeTickers.Nodup := by
  by_cases h0 : ticker = ""
  · simp [addTicker, h0] at h1
  by_cases hcs : matchesTickerCharset (normalizeTicker ticker) = true
  swap
  · have hcs' : matchesTickerCharset (normalizeTicker ticker) = false := by simpa using hcs
    simp [addTicker, h0, hcs'] at h1
  by_cases hlen : (((normalizeTicker ticker).length < 3 ||
      10 < (normalizeTicker ticker).length)) = true
  · simp [addTicker, h0, hcs, hlen] at h1
  have hlen' : (((normalizeTicker ticker).length < 3 ||
      10 < (normalizeTicker ticker).length)) = false := by simpa using hlen
  by_cases htr : normalizeTicker ticker ∈ st.activeTickers
  · have hst : st₁ = st := by
      simp [addTicker, h0, hcs, hlen', htr] at h1
      exact h1.symm
    subst hst
    refine ⟨by simp [addTicker, h0, hcs, hlen', htr], ?_, hnd⟩
    exact List.count_eq_one_of_mem hnd htr
  · by_cases hb : browserUp = true
    swap
    · have hb' : browserUp = false := by simpa using hb
      simp [addTicker, h0, hcs, hlen', htr, hb'] at h1
    by_cases hsrc : src (normalizeTicker ticker) = true
    swap
    · have hsrc' : src (normalizeTicker ticker) = false := by simpa using hsrc
      simp [addTicker, h0, hcs, hlen', htr, hb, hsrc'] at h1
    have hst : st₁ = ⟨st.pages ++ [normalizeTicker ticker],
        st.activeTickers ++ [normalizeTicker ticker], st.lastPriceUpdate⟩ := by
      simp [addTicker, h0, hcs, hlen', htr, hb, hsrc] at h1
      exact h1.symm
    subst hst
    have hmem1 : normalizeTicker ticker ∈
        st.activeTickers ++ [normalizeTicker ticker] := by
      simp
    have hnotmem : normalizeTicker ticker ∉ st.activeTickers := htr
    refine ⟨by simp [addTicker, h0, hcs, hlen', hmem1], ?_, ?_⟩
    · rw [List.count_append, List.count_eq_zero_of_not_mem hnotmem,
        List.count_singleton_self]
    · exact hnd.append (List.nodup_singleton _) (List.disjoint_singleton.2 hnotmem)

/-- C4 witness: adding `"BTCUSD"` to the empty state succeeds, and the
theorem applies to that run. -/
theorem addTicker_idempotent_witness :
    addTicker true (fun _ => true)
        ⟨["BTCUSD"], ["BTCUSD"], []⟩ "BTCUSD" = .ok ⟨["BTCUSD"], ["BTCUSD"], []⟩ ∧
    (["BTCUSD"] : List String).count (normalizeTicker "BTCUSD") = 1 ∧
    (["BTCUSD"] : List String).Nodup :=
  addTicker_idempotent true (fun _ => true) ⟨[], [], []⟩
    ⟨["BTCUSD"], ["BTCUSD"], []⟩ "BTCUSD" rfl (by decide)

/-- C2 counterexample: removing the tracked ticker `"ETHUSD"` through the
DELETE handler succeeds and clears the page and the tracked set, but the
`lastPriceUpdate` cache entry `("ETHUSD", 5)` survives removal. -/
theorem removeTicker_cache_survives_counterexample :
    deleteTickerEndpoint ⟨["ETHUSD"], ["ETHUSD"], [("ETHUSD", 5)]⟩ "ETHUSD" =
      .ok ⟨[], [], [("ETHUSD", 5)]⟩ :=
  rfl

/-- C2 amended: `DELETE /api/tickers/:ticker` fails with `TICKER_NOT_FOUND`
when the instrument is absent (returning no new state, hence no side effect);
when it is tracked, removal closes and drops the page entry and removes the
instrument from the tracked set, but the `lastPriceUpdate` cache entry is not
removed and survives removal. -/
theorem deleteTicker_spec (st : ScraperState) (ticker : String)
    (hne : ¬ ticker = "") :
    (¬ normalizeTicker ticker ∈ st.activeTickers →
      deleteTickerEndpoint st ticker = .error .tickerNotFound) ∧
    (normalizeTicker ticker ∈ st.activeTickers →
      deleteTickerEndpoint st ticker = .ok (removeTicker st (normalizeTicker ticker)) ∧
      (st.activeTickers.Nodup →
        ¬ normalizeTicker ticker ∈ (removeTicker st (normalizeTicker ticker)).activeTickers) ∧
      (st.pages.Nodup →
        ¬ normalizeTicker ticker ∈ (removeTicker st (normalizeTicker ticker)).pages) ∧
      (removeTicker st (normalizeTicker ticker)).lastPriceUpdate = st.lastPriceUpdate) := by
  constructor
  · intro habs
    have hmem' : ¬ normalizeTicker ticker ∈ getActiveTickers st := fun h =>
      habs ((mem_sortStrings _ _).1 h)
    simp [deleteTickerEndpoint, hne, hmem']
  · intro hmem
    have hmem' : normalizeTicker ticker ∈ getActiveTickers st :=
      (mem_sortStrings _ _).2 hmem
    refine ⟨by simp [deleteTickerEndpoint, hne, hmem'], ?_, ?_, rfl⟩
    · intro hnd
      show ¬ _ ∈ st.activeTickers.erase (normalizeTicker (normalizeTicker ticker))
      rw [normalizeTicker_idem]
      exact hnd.not_mem_erase
    · intro hnd
      show ¬ _ ∈ st.pages.erase (normalizeTicker (normalizeTicker ticker))
      rw [normalizeTicker_idem]
      exact hnd.not_mem_erase

/-- C2 witness: the theorem applied to a one-ticker state. -/
theorem deleteTicker_spec_witness :
    deleteTickerEndpoint ⟨["BTCUSD"], ["BTCUSD"], [("BTCUSD", 7)]⟩ "BTCUSD" =
      .ok (removeTicker ⟨["BTCUSD"], ["BTCUSD"], [("BTCUSD", 7)]⟩
        (normalizeTicker "BTCUSD")) ∧
    ¬ normalizeTicker "BTCUSD" ∈
      (removeTicker ⟨["BTCUSD"], ["BTCUSD"], [("BTCUSD", 7)]⟩
        (normalizeTicker "BTCUSD")).activeTickers ∧
    (removeTicker ⟨["BTCUSD"], ["BTCUSD"], [("BTCUSD", 7)]⟩
        (normalizeTicker "BTCUSD")).lastPriceUpdate = [("BTCUSD", 7)] := by
  have h := (deleteTicker_spec ⟨["BTCUSD"], ["BTCUSD"], [("BTCUSD", 7)]⟩ "BTCUSD"
      (by decide)).2 (by decide)
  exact ⟨h.1, h.2.1 (by decide), h.2.2.2⟩

/-! ### The 200ms price-cache gate (claim C1) -/

theorem getPrice_success (content : String → PageContent) (now : Int)
    (st : ScraperState) (ticker : String) (ptext : String) (p : FloatParts)
    (hpage : normalizeTicker ticker ∈ st.pages)
    (httl : ¬ now - ((st.lastPriceUpdate.lookup (normalizeTicker ticker)).getD 0) <
      PRICE_CACHE_DURATION)
    (hpt : (content (normalizeTicker ticker)).priceText = some ptext)
    (hne : (trimChars ptext.toList).isEmpty = false)
    (hparse : parsePartsChars (cleanPriceText ptext).toList = some p)
    (hpos : ¬ p.toRat ≤ 0) :
    getPrice content now st ticker =
      (some ⟨normalizeTicker ticker, p.toRat, now,
        (content (normalizeTicker ticker)).changeText.bind parseChangeText,
        (content (normalizeTicker ticker)).changePercentText.bind parseChangeText,
        (content (normalizeTicker ticker)).timestampText.bind (fun s =>
          if (trimChars s.toList).isEmpty then none
          else some (String.mk (trimChars s.toList)))⟩,
       ⟨st.pages, st.activeTickers,
        mapSet st.lastPriceUpdate (normalizeTicker ticker) now⟩) := by
  have hne' : ¬ trimChars ptext.data = [] := by simpa using hne
  have hparse' : parsePartsChars (cleanPriceText ptext).data = some p := by
    simpa using hparse
  simp [getPrice, jsParseFloat, hpage, httl, hpt, hne', hparse', hpos]

/-- C1 counterexample: with the page of `"BTCUSD"` showing the price text
`"65,000.12 USD"`, a fetch at `t = 1000` produces a Quote and stamps the
cache; a second call at `t = 1100` — inside the 200ms TTL — returns `null`,
not the cached Quote (no Quote is cached at all: only the timestamp is). -/
theorem getPrice_ttl_counterexample :
    (getPrice (fun _ => ⟨some "65,000.12 USD", none, none, none⟩) 1000
      ⟨["BTCUSD"], ["BTCUSD"], []⟩ "BTCUSD").1.isSome = true ∧
    (getPrice (fun _ => ⟨some "65,000.12 USD", none, none, none⟩) 1100
      (getPrice (fun _ => ⟨some "65,000.12 USD", none, none, none⟩) 1000
        ⟨["BTCUSD"], ["BTCUSD"], []⟩ "BTCUSD").2 "BTCUSD").1 = none := by
  have hrun := getPrice_success (fun _ => ⟨some "65,000.12 USD", none, none, none⟩)
    1000 ⟨["BTCUSD"], ["BTCUSD"], []⟩ "BTCUSD" "65,000.12 USD"
    ⟨false, 65000, 12, 2⟩ (by decide) (by decide) (by decide) (by decide) (by decide)
    (by norm_num [FloatParts.toRat])
  rw [hrun]
  exact ⟨rfl, rfl⟩

/-- C1 amended: when a tracked instrument's page is open and
`now - lastFetchTime < 200ms`, `getPrice` skips the fetch and returns `null`
(not a cached Quote — the cache stores only the fetch timestamp), touching
neither the page-content source nor the state; two such calls inside the TTL
window both return `null` and leave the state unchanged. -/
theorem getPrice_within_ttl_returns_none (st : ScraperState) (ticker : String)
    (now now₂ : Int)
    (hpage : normalizeTicker ticker ∈ st.pages)
    (h1 : now - ((st.lastPriceUpdate.lookup (normalizeTicker ticker)).getD 0) <
      PRICE_CACHE_DURATION)
    (h2 : now₂ - ((st.lastPriceUpdate.lookup (normalizeTicker ticker)).getD 0) <
      PRICE_CACHE_DURATION) :
    ∀ content content₂ : String → PageContent,
      getPrice content now st ticker = (none, st) ∧
      getPrice content₂ now₂ st ticker = (none, st) := by
  intro content content₂
  constructor
  · simp [getPrice, hpage, h1]
  · simp [getPrice, hpage, h2]

/-- C1 witness: a state whose `"BTCUSD"` entry was stamped at `t = 1000`,
probed at `t = 1100` and `t = 1150` with two different content oracles. -/
theorem getPrice_within_ttl_returns_none_witness :
    getPrice (fun _ => ⟨some "65,000.12 USD", none, none, none⟩) 1100
      ⟨["BTCUSD"], ["BTCUSD"], [("BTCUSD", 1000)]⟩ "BTCUSD" =
      (none, ⟨["BTCUSD"], ["BTCUSD"], [("BTCUSD", 1000)]⟩) ∧
    getPrice (fun _ => ⟨some "99,999.99", none, none, none⟩) 1150
      ⟨["BTCUSD"], ["BTCUSD"], [("BTCUSD", 1000)]⟩ "BTCUSD" =
      (none, ⟨["BTCUSD"], ["BTCUSD"], [("BTCUSD", 1000)]⟩) :=
  getPrice_within_ttl_returns_none ⟨["BTCUSD"], ["BTCUSD"], [("BTCUSD", 1000)]⟩
    "BTCUSD" 1100 1150 (by decide) (by decide) (by decide)
    (fun _ => ⟨some "65,000.12 USD", none, none, none⟩)
    (fun _ => ⟨some "99,999.99", none, none, none⟩)

/-! ### Per-tick failure isolation and batch gating (claims C8, C9) -/

theorem getPrice_of_priceText_none (content : String → PageContent) (now : Int)
    (ticker : String) (h : (content (normalizeTicker ticker)).priceText = none) :
    ∀ st : ScraperState, getPrice content now st ticker = (none, st) := by
  intro st
  simp [getPrice, h]

theorem getPrice_some_price_pos (content : String → PageContent) (now : Int)
    (st : ScraperState) (ticker : String) (pd : PriceData) (st' : ScraperState)
    (h : getPrice content now st ticker = (some pd, st')) :
    0 < pd.price := by
  simp only [getPrice] at h
  split at h
  · simp at h
  · split at h
    · simp at h
    · split at h
      · simp at h
      · split at h
        · simp at h
        · split at h
          · simp at h
          · split at h
            · simp at h
            · rename_i hple
              simp only [Prod.mk.injEq, Option.some.injEq] at h
              obtain ⟨hpd, -⟩ := h
              subst hpd
              simpa using lt_of_not_le hple

theorem getPriceList_positive (content : String → PageContent) (now : Int) :
    ∀ (ts : List String) (st : ScraperState) (pd : PriceData),
      some pd ∈ (getPriceList content now st ts).1 → 0 < pd.price := by
  intro ts
  induction ts with
  | nil => intro st pd h; simp [getPriceList] at h
  | cons t ts ih =>
    intro st pd h
    rw [getPriceList] at h
    rcases List.mem_cons.1 h with h1 | h2
    · exact getPrice_some_price_pos content now st t pd
        (getPrice content now st t).2 (by rw [h1])
    · exact ih (getPrice content now st t).2 pd h2

/-- C9: every Quote the retrieval path produces has a strictly positive price:
whenever `getPrice` returns a `PriceData` its price exceeds zero, and hence
every element of a `getAllPrices` batch (the payload of a `prices` broadcast)
has a strictly positive price. -/
theorem quote_price_positive (content : String → PageContent) (now : Int)
    (st : ScraperState) :
    (∀ (ticker : String) (pd : PriceData) (st' : ScraperState),
      getPrice content now st ticker = (some pd, st') → 0 < pd.price) ∧
    (∀ pd ∈ (getAllPrices content now st).1, 0 < pd.price) := by
  constructor
  · intro ticker pd st' h
    exact getPrice_some_price_pos content now st ticker pd st' h
  · intro pd hmem
    unfold getAllPrices at hmem
    simp only [List.mem_filterMap, id] at hmem
    obtain ⟨a, ha, rfl⟩ := hmem
    exact getPriceList_positive content now st.activeTickers st pd ha

/-- C9 witness: the concrete fetch of `"BTCUSD"` at price text
`"65,000.12 USD"` yields a Quote, and the theorem gives its positivity. -/
theorem quote_price_positive_witness :
    0 < (FloatParts.toRat ⟨false, 65000, 12, 2⟩) := by
  have hrun := getPrice_success (fun _ => ⟨some "65,000.12 USD", none, none, none⟩)
    1000 ⟨["BTCUSD"], ["BTCUSD"], []⟩ "BTCUSD" "65,000.12 USD"
    ⟨false, 65000, 12, 2⟩ (by decide) (by decide) (by decide) (by decide) (by decide)
    (by norm_num [FloatParts.toRat])
  have h := (quote_price_positive (fun _ => ⟨some "65,000.12 USD", none, none, none⟩)
    1000 ⟨["BTCUSD"], ["BTCUSD"], []⟩).1 "BTCUSD" _ _ hrun
  simpa using h

theorem getPriceList_skip (content : String → PageContent) (now : Int)
    (t : String) (hfail : (content (normalizeTicker t)).priceText = none) :
    ∀ (l₁ : List String) (l₂ : List String) (st : ScraperState),
      (getPriceList content now st (l₁ ++ t :: l₂)).1.filterMap id =
      (getPriceList content now st (l₁ ++ l₂)).1.filterMap id := by
  intro l₁
  induction l₁ with
  | nil =>
    intro l₂ st
    simp only [List.nil_append, getPriceList]
    rw [getPrice_of_priceText_none content now t hfail st]
    simp
  | cons x l₁ ih =>
    intro l₂ st
    simp only [List.cons_append, getPriceList]
    cases hx : (getPrice content now st x).1 with
    | none => simp [List.filterMap_cons, hx, ih l₂ (getPrice content now st x).2]
    | some pd => simp [List.filterMap_cons, hx, ih l₂ (getPrice content now st x).2]

theorem getPriceList_all_fail (content : String → PageContent) (now : Int) :
    ∀ (ts : List String) (st : ScraperState),
      (∀ t ∈ ts, (content (normalizeTicker t)).priceText = none) →
      (getPriceList content now st ts).1.filterMap id = [] := by
  intro ts
  induction ts with
  | nil => intro st _; simp [getPriceList]
  | cons t ts ih =>
    intro st hall
    rw [getPriceList, getPrice_of_priceText_none content now t (hall t (by simp)) st]
    simpa using ih st (fun u hu => hall u (by simp [hu]))

/-- C8: a per-instrument retrieval failure contributes nothing to the tick's
batch and leaves the results for the other instruments unchanged, and the
tick hands the batch to `broadcast` exactly when it is non-empty — in
particular a tick on which every instrument fails broadcasts nothing. -/
theorem tick_isolates_failures (content : String → PageContent) (now : Int)
    (st : ScraperState) :
    (∀ (l₁ l₂ : List String) (t : String),
      (content (normalizeTicker t)).priceText = none →
      (getPriceList content now st (l₁ ++ t :: l₂)).1.filterMap id =
      (getPriceList content now st (l₁ ++ l₂)).1.filterMap id) ∧
    ((streamTick content now st).1 = none ↔ (getAllPrices content now st).1 = []) ∧
    ((∀ t ∈ st.activeTickers, (content (normalizeTicker t)).priceText = none) →
      (streamTick content now st).1 = none) := by
  have hgate : (streamTick content now st).1 = none ↔
      (getAllPrices content now st).1 = [] := by
    unfold streamTick
    constructor
    · intro h
      by_cases hlen : 0 < (getAllPrices content now st).1.length
      · simp [hlen] at h
      · simpa using List.length_eq_zero.1 (by omega)
    · intro h
      simp [h]
  refine ⟨?_, hgate, ?_⟩
  · intro l₁ l₂ t hfail
    exact getPriceList_skip content now t hfail l₁ l₂ st
  · intro hall
    rw [hgate]
    unfold getAllPrices
    exact getPriceList_all_fail content now st.activeTickers st hall

/-- C8 witness: with `"ETHUSD"` failing between two healthy retrievals, the
batch equals the batch without it; and an all-failure state broadcasts
nothing. -/
theorem tick_isolates_failures_witness :
    ((getPriceList
        (fun s => if s = "ETHUSD" then ⟨none, none, none, none⟩
          else ⟨some "5", none, none, none⟩) 1000
        ⟨["BTCUSD", "ETHUSD", "SOLUSD"], ["BTCUSD", "ETHUSD", "SOLUSD"], []⟩
        (["BTCUSD"] ++ "ETHUSD" :: ["SOLUSD"])).1.filterMap id =
      (getPriceList
        (fun s => if s = "ETHUSD" then ⟨none, none, none, none⟩
          else ⟨some "5", none, none, none⟩) 1000
        ⟨["BTCUSD", "ETHUSD", "SOLUSD"], ["BTCUSD", "ETHUSD", "SOLUSD"], []⟩
        (["BTCUSD"] ++ ["SOLUSD"])).1.filterMap id) ∧
    (streamTick (fun _ => ⟨none, none, none, none⟩) 1000
      ⟨["BTCUSD"], ["BTCUSD"], []⟩).1 = none := by
  constructor
  · exact (tick_isolates_failures
      (fun s => if s = "ETHUSD" then ⟨none, none, none, none⟩
        else ⟨some "5", none, none, none⟩) 1000
      ⟨["BTCUSD", "ETHUSD", "SOLUSD"], ["BTCUSD", "ETHUSD", "SOLUSD"], []⟩).1
      ["BTCUSD"] ["SOLUSD"] "ETHUSD" (by decide)
  · exact (tick_isolates_failures (fun _ => ⟨none, none, none, none⟩) 1000
      ⟨["BTCUSD"], ["BTCUSD"], []⟩).2.2 (fun t ht => rfl)

end CryptoStream
